import Mathlib

/-!
Verification of the track-generator core (`src/index.ts`, first variant: random
track width, `maximumTriesPerSection = 3`, enclosure check).

Modelling conventions, chosen once and used throughout:

* Coordinates are exact rationals (`ℚ`).  Every JavaScript float is a rational
  number, and none of the verified claims depends on rounding, so the exact
  model is faithful for them.  `Math.sqrt` generally returns an irrational-
  approximating float, so it is modelled as an unspecified rational-valued
  function `msqrt` supplied by the geometry kernel.
* The bezier-js geometry kernel (outline, intersections, projection, arc
  length, the `_linear` flag, line intersection) is an external library; it is
  modelled as an abstract structure `Kernel` of pure functions.  Curve
  evaluation (`Bezier#get`/`compute`) and the end derivative are computed
  concretely from the four control points (bezier-js returns the exact control
  point at `t = 0` and `t = 1`).
* JavaScript reference equality (`===`) between curve objects is modelled as
  structural equality; the program only ever compares a curve object with
  itself or with independently generated curves.
* `lodash.random` draws are modelled by an oracle: a function from a draw
  index to the drawn values.  Each retry of the section generator uses the
  next oracle index ("fresh randomness").
* The unbounded retry loops of the source are modelled with explicit fuel;
  running out of fuel is a distinguished `outOfFuel` outcome.  The `throw` in
  `getRandomTrackSection` is the distinguished `fatal` outcome.
* The ray directions of `linesInAllDirectionsFromOrigin` have coordinates
  `cos/sin(2*pi*k/10) * 50`, which are irrational; the list of ray endpoint
  offsets is therefore part of the abstract kernel data (`rayDeltas`), and the
  real-valued definition `rayDelta` captures the geometric construction.
-/

namespace TrackGenerator

/-- A 2-D point, source interface `Point { x, y }`. -/
@[ext] structure Point where
  x : ℚ
  y : ℚ
deriving DecidableEq, Repr

instance : Inhabited Point := ⟨⟨0, 0⟩⟩

/-- A cubic Bezier curve given by its four control points (bezier-js
`new Bezier([p0, p1, p2, p3])`). -/
@[ext] structure Curve where
  p0 : Point
  p1 : Point
  p2 : Point
  p3 : Point
deriving DecidableEq, Repr

instance : Inhabited Curve := ⟨⟨default, default, default, default⟩⟩

/-- A straight line segment, bezier-js `Line { p1, p2 }`. -/
structure Line where
  p1 : Point
  p2 : Point
deriving DecidableEq, Repr

/-- Source interface `TrackSection`. -/
structure TrackSection where
  center : Curve
  leftEdge : List Curve
  rightEdge : List Curve
deriving DecidableEq, Repr

/-- Source type `Track = Array<TrackSection>`. -/
abbrev Track := List TrackSection

/-- Point addition, source `add`. -/
def add (point1 point2 : Point) : Point :=
  ⟨point1.x + point2.x, point1.y + point2.y⟩

/-- Point negation, source `invert`. -/
def invert (point : Point) : Point :=
  ⟨-point.x, -point.y⟩

/-- Scalar multiplication, source `multiply`. -/
def multiply (point : Point) (multiple : ℚ) : Point :=
  ⟨point.x * multiple, point.y * multiple⟩

/-- Evaluation of the cubic Bernstein polynomial of the control points; this
is bezier-js `Bezier#get(t)`/`compute(t)` (which returns the exact first/last
control point at `t = 0` / `t = 1`). -/
def Curve.get (c : Curve) (t : ℚ) : Point :=
  ⟨(1 - t) ^ 3 * c.p0.x + 3 * (1 - t) ^ 2 * t * c.p1.x
      + 3 * (1 - t) * t ^ 2 * c.p2.x + t ^ 3 * c.p3.x,
    (1 - t) ^ 3 * c.p0.y + 3 * (1 - t) ^ 2 * t * c.p1.y
      + 3 * (1 - t) * t ^ 2 * c.p2.y + t ^ 3 * c.p3.y⟩

/-- The derivative (hodograph) of a cubic Bezier curve, bezier-js
`Bezier#derivative(t)`: the quadratic Bezier on the points `3*(p1-p0)`,
`3*(p2-p1)`, `3*(p3-p2)`. -/
def Curve.derivative (c : Curve) (t : ℚ) : Point :=
  ⟨(1 - t) ^ 2 * (3 * (c.p1.x - c.p0.x)) + 2 * (1 - t) * t * (3 * (c.p2.x - c.p1.x))
      + t ^ 2 * (3 * (c.p3.x - c.p2.x)),
    (1 - t) ^ 2 * (3 * (c.p1.y - c.p0.y)) + 2 * (1 - t) * t * (3 * (c.p2.y - c.p1.y))
      + t ^ 2 * (3 * (c.p3.y - c.p2.y))⟩

/-- The abstract geometry kernel: the bezier-js operations the core consumes,
plus `msqrt` (the rational value `Math.sqrt` returns on rational float input)
and `rayDeltas` (the irrational-coordinate ray endpoint offsets of
`linesInAllDirectionsFromOrigin`).  Intersections are modelled as the parsed
`(t1, t2)` pairs of the source's `"t1/t2"` strings. -/
structure Kernel where
  msqrt : ℚ → ℚ
  selfintersects : Curve → ℚ → List (ℚ × ℚ)
  overlaps : Curve → Curve → Bool
  intersects : Curve → Curve → ℚ → List (ℚ × ℚ)
  lineIntersects : Curve → Line → List ℚ
  outline : Curve → ℚ → List Curve
  isLinear : Curve → Bool
  curveLength : Curve → ℚ
  projectDistance : Curve → Point → ℚ
  rayDeltas : List Point

/-- Source constant `curveIntersectionThreshold = 0.001`. -/
def curveIntersectionThreshold : ℚ := 0.001

/-- Source constant `maximumAllowedOutlineGap = 0.0001`. -/
def maximumAllowedOutlineGap : ℚ := 0.0001

/-- Source constant `maximumTriesPerSection = 3` (first variant). -/
def maximumTriesPerSection : ℕ := 3

/-- Vector magnitude, source `getLength` (`Math.sqrt(x ** 2 + y ** 2)`). -/
def getLength (K : Kernel) (point : Point) : ℚ :=
  K.msqrt (point.x ^ 2 + point.y ^ 2)

/-- Rescale a vector to a given length, source `scaleLength`.  In exact
rational arithmetic `newLength / 0 = 0` here; the zero-length edge case with
its IEEE-754 NaN outcome is modelled separately by `scaleLengthX` below. -/
def scaleLength (K : Kernel) (point : Point) (newLength : ℚ) : Point :=
  ⟨newLength / getLength K point * point.x, newLength / getLength K point * point.y⟩

/-- Distance between two points, source `distance(p1, p2) =
getLength(add(p1, invert(p2)))`. -/
def distance (K : Kernel) (point1 point2 : Point) : ℚ :=
  getLength K (add point1 (invert point2))

/-- Source `endOfCenterLine`: the center curve evaluated at `t = 1`. -/
def endOfCenterLine (sec : TrackSection) : Point :=
  sec.center.get 1

/-- One draw of source `getRandomPoint`: the two uniform coordinates and the
`lodash.random(0.5, 3)` scale factor. -/
structure PRand where
  rx : ℚ
  ry : ℚ
  scale : ℚ
deriving DecidableEq, Repr

/-- Source `getRandomPoint({relativeTo})`: `add(relativeTo,
multiply({x: random, y: random}, random(0.5, 3)))`. -/
def getRandomPoint (relativeTo : Point) (d : PRand) : Point :=
  add relativeTo (multiply ⟨d.rx, d.ry⟩ d.scale)

/-- Source `randomPointAlongEndOfCenterLineTangent`: walk from the end point
along the end tangent by a random distance. -/
def randomPointAlongEndOfCenterLineTangent (K : Kernel) (sec : TrackSection)
    (distanceAlongTangent : ℚ) : Point :=
  add (endOfCenterLine sec) (scaleLength K (sec.center.derivative 1) distanceAlongTangent)

/-- Source `isProbablyEndCap`: the kernel's `_linear` flag plus an arc length
strictly within 5% of the track width. -/
def isProbablyEndCap (K : Kernel) (curve : Curve) (trackWidth : ℚ) : Bool :=
  K.isLinear curve
    && decide ((0.95 : ℚ) * trackWidth < K.curveLength curve)
    && decide (K.curveLength curve < (1.05 : ℚ) * trackWidth)

/-- Source `endpointIsTooCloseToCurve`: either endpoint of the cap projects
onto the center curve at distance below `0.99 * (trackWidth / 2)`. -/
def endpointIsTooCloseToCurve (K : Kernel) (curveToCheckEndpoints curveToStayAwayFrom : Curve)
    (trackWidth : ℚ) : Bool :=
  decide (K.projectDistance curveToStayAwayFrom curveToCheckEndpoints.p0
      < (0.99 : ℚ) * (trackWidth / 2))
    || decide (K.projectDistance curveToStayAwayFrom curveToCheckEndpoints.p3
      < (0.99 : ℚ) * (trackWidth / 2))

/-- Source `hasGapsInOutline`: consecutive end/start gaps for indices
`1 ≤ i < length`, plus the wraparound gap between the start of the first and
the end of the last curve.  The source indexes `curves[0]` unconditionally, so
its behaviour on an empty array (a crash) is outside this model; every theorem
about it assumes a non-empty list. -/
def hasGapsInOutline (K : Kernel) (curves : List Curve) : Bool :=
  ((List.range' 1 (curves.length - 1)).any fun i =>
    decide (distance K ((curves.getD (i - 1) default).get 1)
        ((curves.getD i default).get 0) > maximumAllowedOutlineGap))
  || decide (distance K ((curves.getD 0 default).get 0)
      ((curves.getD (curves.length - 1) default).get 1) > maximumAllowedOutlineGap)

/-- Source `hasIntersectionOtherThanAtCurveEnds`: reference-equal curves are
checked for self-intersection; otherwise a broad-phase `overlaps` pre-check,
then any intersection with a parametric coordinate strictly inside
`(0.01, 0.99)` counts. -/
def hasIntersectionOtherThanAtCurveEnds (K : Kernel) (curve1 curve2 : Curve) : Bool :=
  if curve1 = curve2 then
    decide (0 < (K.selfintersects curve1 curveIntersectionThreshold).length)
  else if K.overlaps curve1 curve2 = false then
    false
  else if (K.intersects curve1 curve2 curveIntersectionThreshold).length = 0 then
    false
  else
    (K.intersects curve1 curve2 curveIntersectionThreshold).any fun p =>
      decide (((0.01 : ℚ) < p.1 ∧ p.1 < (0.99 : ℚ)) ∨ ((0.01 : ℚ) < p.2 ∧ p.2 < (0.99 : ℚ)))

/-- Source `hasAnySelfIntersections(curves, existingCurves)`: the outer loop
runs `firstCurveIndex` over `[0, curves.length - 1)`; the inner loop starts at
`firstCurveIndex` (so a curve is paired with itself), and each outer index is
also checked against every existing curve. -/
def hasAnySelfIntersections (K : Kernel) (curves existingCurves : List Curve) : Bool :=
  (List.range (curves.length - 1)).any fun firstCurveIndex =>
    ((List.range' firstCurveIndex (curves.length - firstCurveIndex)).any fun secondCurveIndex =>
      hasIntersectionOtherThanAtCurveEnds K (curves.getD firstCurveIndex default)
        (curves.getD secondCurveIndex default))
    || (existingCurves.any fun existingCurve =>
      hasIntersectionOtherThanAtCurveEnds K (curves.getD firstCurveIndex default) existingCurve)

/-- Source `getAllCurves`: every section's center, left-edge and right-edge
curves, in that order. -/
def getAllCurves (track : Track) : List Curve :=
  track.flatMap fun sec => sec.center :: (sec.leftEdge ++ sec.rightEdge)

/-- The inner loop of source `isMostlyEnclosed`: walk the precomputed rays;
a ray is blocked when some existing center line (scanned most-recent-first)
intersects its translate to `point`; on each blocked ray the counter is
incremented and the function returns `true` as soon as
`count / numberOfLines > 0.6` (with `numberOfLines = 10`). -/
def enclosedLoop (K : Kernel) (point : Point) (centerLines : List Curve) :
    List Point → ℕ → Bool
  | [], _ => false
  | r :: rest, count =>
    if centerLines.reverse.any (fun c =>
        decide (0 < (K.lineIntersects c ⟨point, add point r⟩).length)) then
      if ((count : ℚ) + 1) / 10 > (0.6 : ℚ) then
        true
      else
        enclosedLoop K point centerLines rest (count + 1)
    else
      enclosedLoop K point centerLines rest count

/-- Source `isMostlyEnclosed`: `false` with no existing sections, otherwise
the ray-casting loop over the ten precomputed rays. -/
def isMostlyEnclosed (K : Kernel) (point : Point) (existingSections : Track) : Bool :=
  if existingSections.length = 0 then
    false
  else
    enclosedLoop K point (existingSections.map fun sec => sec.center) K.rayDeltas 0


/-- The random draws consumed by one attempt of `getRandomTrackSection`: one
`getRandomPoint` draw per potential call site, plus the
`lodash.random(0, maximumDistanceBetweenTwoCurveDefinitionPoints)` tangent
distance.  Which fields are consumed depends on whether a previous section is
present, exactly as in the source. -/
structure SectionDraws where
  bbDraw : PRand
  startDraw : PRand
  c1Draw : PRand
  c2Draw : PRand
  endDraw : PRand
  tangentDist : ℚ
deriving DecidableEq, Repr

/-- The center line one attempt of `getRandomTrackSection` builds: bounding
box origin, starting point, first control point (previous-section tangent
walk when continuing), then two further random points.  Its `p3` is the
attempt's `endingPoint`. -/
def attemptCenterLine (K : Kernel) (d : SectionDraws) (previousSection : Option TrackSection) :
    Curve :=
  match previousSection with
  | some prev =>
    ⟨endOfCenterLine prev,
      randomPointAlongEndOfCenterLineTangent K prev d.tangentDist,
      getRandomPoint (add (invert (getRandomPoint ⟨0, 0⟩ d.bbDraw)) (endOfCenterLine prev)) d.c2Draw,
      getRandomPoint (add (invert (getRandomPoint ⟨0, 0⟩ d.bbDraw)) (endOfCenterLine prev)) d.endDraw⟩
  | none =>
    ⟨getRandomPoint ⟨0, 0⟩ d.startDraw,
      getRandomPoint ⟨0, 0⟩ d.c1Draw,
      getRandomPoint ⟨0, 0⟩ d.c2Draw,
      getRandomPoint ⟨0, 0⟩ d.endDraw⟩

/-- The outline of the attempt's center line at half the track width, source
`centerLine.outline(trackWidth / 2).curves`. -/
def attemptOutline (K : Kernel) (d : SectionDraws) (trackWidth : ℚ)
    (previousSection : Option TrackSection) : List Curve :=
  K.outline (attemptCenterLine K d previousSection) (trackWidth / 2)

/-- The probable end caps of the attempt's outline, source
`outlineCurves.filter(isProbablyEndCap)`. -/
def attemptEndCaps (K : Kernel) (d : SectionDraws) (trackWidth : ℚ)
    (previousSection : Option TrackSection) : List Curve :=
  (attemptOutline K d trackWidth previousSection).filter fun curve =>
    isProbablyEndCap K curve trackWidth

/-- The indices at which probable end caps sit in the attempt's outline,
source `endCapIndexes` (pushed in ascending order by the filter). -/
def endCapIndexes (K : Kernel) (curves : List Curve) (trackWidth : ℚ) : List ℕ :=
  (List.range curves.length).filter fun i =>
    isProbablyEndCap K (curves.getD i default) trackWidth

/-- Source `outlineCurves.slice(endCapIndexes[0] + 1, endCapIndexes[1])`: the
right edge of the attempt. -/
def attemptRightEdge (K : Kernel) (d : SectionDraws) (trackWidth : ℚ)
    (previousSection : Option TrackSection) : List Curve :=
  ((attemptOutline K d trackWidth previousSection).drop
      ((endCapIndexes K (attemptOutline K d trackWidth previousSection) trackWidth).getD 0 0 + 1)).take
    ((endCapIndexes K (attemptOutline K d trackWidth previousSection) trackWidth).getD 1 0
      - ((endCapIndexes K (attemptOutline K d trackWidth previousSection) trackWidth).getD 0 0 + 1))

/-- Source `outlineCurves.slice(endCapIndexes[1] + 1)`: the left edge of the
attempt. -/
def attemptLeftEdge (K : Kernel) (d : SectionDraws) (trackWidth : ℚ)
    (previousSection : Option TrackSection) : List Curve :=
  (attemptOutline K d trackWidth previousSection).drop
    ((endCapIndexes K (attemptOutline K d trackWidth previousSection) trackWidth).getD 1 0 + 1)

/-- Outcome of one attempt of `getRandomTrackSection`: a locally recovered
rejection (`retry`, a recursive call with fresh randomness in the source), the
`throw` of the end-cap-index assumption (`fatal`), or a finished section. -/
inductive AttemptResult where
  | retry
  | fatal
  | ok (sec : TrackSection)
deriving DecidableEq, Repr

/-- One attempt of source `getRandomTrackSection`, with its checks in source
order: enclosure of the ending point, center-line self-intersection, end-cap
count, end-cap proximity, outline gaps, the fatal first-end-cap-index
assumption, and self-intersection of the assembled curves. -/
def trackSectionAttempt (K : Kernel) (d : SectionDraws) (trackWidth : ℚ)
    (previousSection : Option TrackSection) (allPreviousSections : Track) : AttemptResult :=
  if isMostlyEnclosed K (attemptCenterLine K d previousSection).p3 allPreviousSections then
    .retry
  else if 0 < (K.selfintersects (attemptCenterLine K d previousSection)
      curveIntersectionThreshold).length then
    .retry
  else if (attemptEndCaps K d trackWidth previousSection).length ≠ 2 then
    .retry
  else if (attemptEndCaps K d trackWidth previousSection).any (fun cap =>
      endpointIsTooCloseToCurve K cap (attemptCenterLine K d previousSection) trackWidth) then
    .retry
  else if hasGapsInOutline K (attemptOutline K d trackWidth previousSection) then
    .retry
  else if (endCapIndexes K (attemptOutline K d trackWidth previousSection) trackWidth).getD 0 0
      ≠ 0 then
    .fatal
  else if hasAnySelfIntersections K
      (attemptCenterLine K d previousSection
        :: (attemptLeftEdge K d trackWidth previousSection
          ++ attemptRightEdge K d trackWidth previousSection)) [] then
    .retry
  else
    .ok ⟨attemptCenterLine K d previousSection,
      attemptLeftEdge K d trackWidth previousSection,
      attemptRightEdge K d trackWidth previousSection⟩

/-- Outcome of a fuelled run: success, the propagated `throw`, or fuel
exhaustion (the source would still be retrying). -/
inductive GenResult (α : Type) where
  | ok (a : α)
  | fatal
  | outOfFuel
deriving DecidableEq, Repr

/-- Source `getRandomTrackSection` as a fuelled retry loop over
`trackSectionAttempt`; attempt number `idx` consumes oracle entry `O idx`, and
a success additionally returns the next unused oracle index. -/
def getRandomTrackSection (K : Kernel) (O : ℕ → SectionDraws) (trackWidth : ℚ)
    (previousSection : Option TrackSection) (allPreviousSections : Track) :
    ℕ → ℕ → GenResult (TrackSection × ℕ)
  | 0, _ => .outOfFuel
  | fuel + 1, idx =>
    match trackSectionAttempt K (O idx) trackWidth previousSection allPreviousSections with
    | .retry => getRandomTrackSection K O trackWidth previousSection allPreviousSections fuel (idx + 1)
    | .fatal => .fatal
    | .ok sec => .ok (sec, idx + 1)

/-- The mutable state of one `makeTrack` call: the accepted sections, the
per-index attempt counters (`triesBySection`, `none` for a slot never
written; the write to index `-1` that JavaScript performs when backtracking at
index 0 is dropped, it is never read), the next oracle index, and the
progress snapshots emitted so far (earliest first). -/
structure BuildState where
  sections : Track
  tries : ℕ → Option ℕ
  cursor : ℕ
  emitted : List Track

/-- Outcome of one iteration of the `makeTrack` while loop. -/
inductive StepOut where
  | next (st : BuildState)
  | finished (track : Track)
  | fatal
  | outOfFuel

/-- One iteration of the source `makeTrack` while loop: finish when the
requested count is reached; backtrack (pop, reset this index's counter,
increment the previous index's counter, emit the shortened track) when this
index's counter exceeds `maximumTriesPerSection`; otherwise generate a
candidate from the last accepted section, emit the speculative snapshot,
increment this index's counter, and append the candidate unless it intersects
the accepted sections' curves. -/
def makeTrackStep (K : Kernel) (O : ℕ → SectionDraws) (trackWidth : ℚ) (requestedSections : ℚ)
    (genFuel : ℕ) (st : BuildState) : StepOut :=
  if (st.sections.length : ℚ) < requestedSections then
    if (st.tries st.sections.length).getD 0 > maximumTriesPerSection then
      .next ⟨st.sections.dropLast,
        fun j =>
          if j = st.sections.length then some 0
          else if j + 1 = st.sections.length then some ((st.tries j).getD 0 + 1)
          else st.tries j,
        st.cursor,
        st.emitted ++ [st.sections.dropLast]⟩
    else
      match getRandomTrackSection K O trackWidth st.sections.getLast? st.sections genFuel
          st.cursor with
      | .outOfFuel => .outOfFuel
      | .fatal => .fatal
      | .ok (nextSection, cursor') =>
        if hasAnySelfIntersections K (getAllCurves [nextSection]) (getAllCurves st.sections) then
          .next ⟨st.sections,
            fun j =>
              if j = st.sections.length then some ((st.tries st.sections.length).getD 0 + 1)
              else st.tries j,
            cursor',
            st.emitted ++ [st.sections ++ [nextSection]]⟩
        else
          .next ⟨st.sections ++ [nextSection],
            fun j =>
              if j = st.sections.length then some ((st.tries st.sections.length).getD 0 + 1)
              else st.tries j,
            cursor',
            st.emitted ++ [st.sections ++ [nextSection]]⟩
  else
    .finished st.sections

/-- The fuelled `makeTrack` while loop. -/
def makeTrackLoop (K : Kernel) (O : ℕ → SectionDraws) (trackWidth : ℚ) (requestedSections : ℚ)
    (genFuel : ℕ) : ℕ → BuildState → GenResult Track
  | 0, _ => .outOfFuel
  | loopFuel + 1, st =>
    match makeTrackStep K O trackWidth requestedSections genFuel st with
    | .next st' => makeTrackLoop K O trackWidth requestedSections genFuel loopFuel st'
    | .finished track => .ok track
    | .fatal => .fatal
    | .outOfFuel => .outOfFuel

/-- Source `makeTrack(requestedSections)`: generate section 0 with no
predecessor (before the requested count is consulted at all), set its attempt
counter to 1, emit the one-section snapshot, then run the extend loop.  The
track width, drawn once by `lodash.random(minimumTrackWidth,
maximumTrackWidth)`, is a parameter of the model; the requested count is a
JavaScript number, hence `ℚ`. -/
def makeTrack (K : Kernel) (O : ℕ → SectionDraws) (trackWidth : ℚ) (genFuel loopFuel : ℕ)
    (requestedSections : ℚ) : GenResult Track :=
  match getRandomTrackSection K O trackWidth none [] genFuel 0 with
  | .outOfFuel => .outOfFuel
  | .fatal => .fatal
  | .ok (firstSection, cursor) =>
    makeTrackLoop K O trackWidth requestedSections genFuel loopFuel
      ⟨[firstSection], fun j => if j = 0 then some 1 else none, cursor, [[firstSection]]⟩

/-- An extended number: a finite rational (a JavaScript float is one), the two
infinities, or NaN.  Used to model the IEEE-754 special values that
`scaleLength` produces on a zero-length vector. -/
inductive XNum where
  | fin (q : ℚ)
  | pinf
  | ninf
  | nan
deriving DecidableEq, Repr

/-- IEEE-754 addition on `XNum` (finite overflow is not modelled; the zero
sign of `-0` is identified with `+0`, which the verified path never
distinguishes). -/
def XNum.add : XNum → XNum → XNum
  | nan, _ => nan
  | _, nan => nan
  | fin a, fin b => fin (a + b)
  | fin _, pinf => pinf
  | pinf, fin _ => pinf
  | fin _, ninf => ninf
  | ninf, fin _ => ninf
  | pinf, pinf => pinf
  | ninf, ninf => ninf
  | pinf, ninf => nan
  | ninf, pinf => nan

/-- IEEE-754 multiplication on `XNum`; in particular `±Infinity * 0 = NaN`. -/
def XNum.mul : XNum → XNum → XNum
  | nan, _ => nan
  | _, nan => nan
  | fin a, fin b => fin (a * b)
  | fin a, pinf => if 0 < a then pinf else if a < 0 then ninf else nan
  | fin a, ninf => if 0 < a then ninf else if a < 0 then pinf else nan
  | pinf, fin b => if 0 < b then pinf else if b < 0 then ninf else nan
  | ninf, fin b => if 0 < b then ninf else if b < 0 then pinf else nan
  | pinf, pinf => pinf
  | pinf, ninf => ninf
  | ninf, pinf => ninf
  | ninf, ninf => pinf

/-- IEEE-754 division on `XNum`; in particular `q / 0 = ±Infinity` for
`q ≠ 0` and `0 / 0 = NaN` (zero is `+0`). -/
def XNum.div : XNum → XNum → XNum
  | nan, _ => nan
  | _, nan => nan
  | fin a, fin b =>
    if b = 0 then (if 0 < a then pinf else if a < 0 then ninf else nan) else fin (a / b)
  | fin _, pinf => fin 0
  | fin _, ninf => fin 0
  | pinf, fin b => if 0 ≤ b then pinf else ninf
  | ninf, fin b => if 0 ≤ b then ninf else pinf
  | pinf, pinf => nan
  | pinf, ninf => nan
  | ninf, pinf => nan
  | ninf, ninf => nan

/-- A point with IEEE-754 extended coordinates. -/
structure XPoint where
  x : XNum
  y : XNum
deriving DecidableEq, Repr

/-- Source `scaleLength` over the IEEE-754 extended numbers, with `Math.sqrt`
as an abstract parameter: `scaleFactor = newLength / sqrt(x*x + y*y)`, result
`(scaleFactor * x, scaleFactor * y)`. -/
def scaleLengthX (msqrt : XNum → XNum) (point : XPoint) (newLength : XNum) : XPoint :=
  ⟨(newLength.div (msqrt ((point.x.mul point.x).add (point.y.mul point.y)))).mul point.x,
    (newLength.div (msqrt ((point.x.mul point.x).add (point.y.mul point.y)))).mul point.y⟩

/-- A concrete stand-in for `Math.sqrt`, specified only at argument `0`
(where IEEE-754 requires `sqrt(+0) = +0`); the theorems that use it quantify
over every `msqrt` with that property. -/
def sqrtZeroModel : XNum → XNum :=
  fun v => if v = XNum.fin 0 then XNum.fin 0 else XNum.nan

/-- The `p2` endpoint of ray `k` of `linesInAllDirectionsFromOrigin`:
`(cos(2*pi*k/10) * 50, sin(2*pi*k/10) * 50)` (real-valued; `numberOfLines =
10`, `lineLength = 50`); the coordinates are irrational reals, so this
definition is necessarily noncomputable and is used only in statements. -/
noncomputable def rayDelta (k : ℕ) : ℝ × ℝ :=
  (Real.cos (2 * Real.pi * k / 10) * 50, Real.sin (2 * Real.pi * k / 10) * 50)

/-- Whether a curve pair counts as intersecting for the spec's reading of
`hasAnySelfIntersections`: a curve paired with itself counts when the kernel
reports a true self-intersection; a distinct pair counts when some reported
intersection has a parametric coordinate strictly inside `(0.01, 0.99)`. -/
def intersectionCountsPred (K : Kernel) (curve1 curve2 : Curve) : Prop :=
  if curve1 = curve2 then
    K.selfintersects curve1 curveIntersectionThreshold ≠ []
  else
    ∃ p ∈ K.intersects curve1 curve2 curveIntersectionThreshold,
      ((0.01 : ℚ) < p.1 ∧ p.1 < (0.99 : ℚ)) ∨ ((0.01 : ℚ) < p.2 ∧ p.2 < (0.99 : ℚ))

/-- Claim C1 as stated: some pair of new curves (each new curve also paired
with itself), or some new/existing pair, counts as intersecting. -/
def claimC1Pred (K : Kernel) (curves existingCurves : List Curve) : Prop :=
  (∃ i j, i ≤ j ∧ j < curves.length ∧
    intersectionCountsPred K (curves.getD i default) (curves.getD j default)) ∨
  (∃ i, i < curves.length ∧ ∃ e ∈ existingCurves,
    intersectionCountsPred K (curves.getD i default) e)

/-- Claim C1 as the code implements it: the first index of a pair never
reaches the last new curve, so the last new curve is never paired with itself
nor with any existing curve. -/
def amendedC1Pred (K : Kernel) (curves existingCurves : List Curve) : Prop :=
  (∃ i j, i + 1 < curves.length ∧ i ≤ j ∧ j < curves.length ∧
    intersectionCountsPred K (curves.getD i default) (curves.getD j default)) ∨
  (∃ i, i + 1 < curves.length ∧ ∃ e ∈ existingCurves,
    intersectionCountsPred K (curves.getD i default) e)

/-- Adjacent-section continuity: each section's center curve ends where the
next one starts. -/
def Chained (track : Track) : Prop :=
  List.Chain' (fun a b => a.center.get 1 = b.center.get 0) track

/-- The number of rays blocked by some existing center line (scanned
most-recent-first, as in the source). -/
def blockedRayCount (K : Kernel) (point : Point) (existingSections : Track) : ℕ :=
  K.rayDeltas.countP fun r =>
    (existingSections.map fun sec => sec.center).reverse.any fun c =>
      decide (0 < (K.lineIntersects c ⟨point, add point r⟩).length)

/-- An all-zero curve with a `p1` marker making `wK` classify it as linear:
the first end cap of `wK`'s outline. -/
def capCurveA : Curve := ⟨⟨0, 0⟩, ⟨1, 0⟩, ⟨0, 0⟩, ⟨0, 0⟩⟩

/-- The second end cap of `wK`'s outline (distinct from `capCurveA`). -/
def capCurveB : Curve := ⟨⟨0, 0⟩, ⟨1, 0⟩, ⟨1, 0⟩, ⟨0, 0⟩⟩

/-- A non-cap outline curve of `wK` (its `p1` marker is not the linear
marker). -/
def sideCurveA : Curve := ⟨⟨0, 0⟩, ⟨2, 0⟩, ⟨0, 0⟩, ⟨0, 0⟩⟩

/-- A second, distinct non-cap outline curve of `wK`. -/
def sideCurveB : Curve := ⟨⟨0, 0⟩, ⟨3, 0⟩, ⟨0, 0⟩, ⟨0, 0⟩⟩

/-- A non-cap outline curve whose end point `(5, 5)` opens a wraparound gap
in the outline. -/
def gapSideCurve : Curve := ⟨⟨0, 0⟩, ⟨3, 0⟩, ⟨0, 0⟩, ⟨5, 5⟩⟩

/-- A concrete benign kernel used for witnesses: no intersections anywhere, a
four-curve outline with end caps at indices 0 and 2, cap arc length `1/10`,
projection distance `1`, and ten ray offsets. -/
def wK : Kernel :=
  ⟨fun q => if q = 0 then 0 else 1,
    fun _ _ => [],
    fun _ _ => false,
    fun _ _ _ => [],
    fun _ _ => [],
    fun _ _ => [capCurveA, sideCurveA, capCurveB, sideCurveB],
    fun c => decide (c.p1 = ⟨1, 0⟩),
    fun _ => 1 / 10,
    fun _ _ => 1,
    (List.range 10).map fun k => ⟨k, 0⟩⟩

/-- A concrete oracle: every attempt draws the origin for everything except
the ending point, which is offset by `(1, 1)`. -/
def wO : ℕ → SectionDraws :=
  fun _ => ⟨⟨0, 0, 1⟩, ⟨0, 0, 1⟩, ⟨0, 0, 1⟩, ⟨0, 0, 1⟩, ⟨1, 1, 1⟩, 0⟩

/-- The first section `wK`/`wO` generate. -/
def wSec0 : TrackSection :=
  ⟨⟨⟨0, 0⟩, ⟨0, 0⟩, ⟨0, 0⟩, ⟨1, 1⟩⟩, [sideCurveB], [sideCurveA]⟩

/-- The second section `wK`/`wO` generate, continuing from `wSec0`. -/
def wSec1 : TrackSection :=
  ⟨⟨⟨1, 1⟩, ⟨1, 1⟩, ⟨1, 1⟩, ⟨2, 2⟩⟩, [sideCurveB], [sideCurveA]⟩

theorem Curve.get_zero (c : Curve) : c.get 0 = c.p0 := by
  ext <;> simp [Curve.get]

theorem Curve.get_one (c : Curve) : c.get 1 = c.p3 := by
  ext <;> simp [Curve.get]

theorem attemptCenterLine_p0 (K : Kernel) (d : SectionDraws) (prev : TrackSection) :
    (attemptCenterLine K d (some prev)).p0 = endOfCenterLine prev := rfl

theorem trackSectionAttempt_ok_inv {K : Kernel} {d : SectionDraws} {tw : ℚ}
    {prev : Option TrackSection} {allPrev : Track} {sec : TrackSection}
    (h : trackSectionAttempt K d tw prev allPrev = .ok sec) :
    sec.center = attemptCenterLine K d prev ∧ (attemptEndCaps K d tw prev).length = 2 := by
  unfold trackSectionAttempt at h
  split at h
  · exact absurd h (by simp)
  split at h
  · exact absurd h (by simp)
  split at h
  next hcaps => exact absurd h (by simp)
  next hcaps =>
    split at h
    · exact absurd h (by simp)
    split at h
    · exact absurd h (by simp)
    split at h
    · exact absurd h (by simp)
    split at h
    · exact absurd h (by simp)
    injection h with h'
    rw [← h']
    exact ⟨rfl, by omega⟩

theorem getRandomTrackSection_ok_inv {K : Kernel} {O : ℕ → SectionDraws} {tw : ℚ}
    {prev : Option TrackSection} {allPrev : Track} {sec : TrackSection} {cur : ℕ} :
    ∀ {fuel idx : ℕ},
      getRandomTrackSection K O tw prev allPrev fuel idx = .ok (sec, cur) →
      ∃ j, trackSectionAttempt K (O j) tw prev allPrev = .ok sec := by
  intro fuel
  induction fuel with
  | zero => intro idx h; simp [getRandomTrackSection] at h
  | succ n ih =>
    intro idx h
    rw [getRandomTrackSection] at h
    split at h
    · exact ih h
    · exact absurd h (by simp)
    next s ha =>
      simp only [GenResult.ok.injEq, Prod.mk.injEq] at h
      exact ⟨idx, by rw [ha, h.1]⟩

theorem getRandomTrackSection_ok_start {K : Kernel} {O : ℕ → SectionDraws} {tw : ℚ}
    {p : TrackSection} {allPrev : Track} {fuel idx : ℕ} {sec : TrackSection} {cur : ℕ}
    (h : getRandomTrackSection K O tw (some p) allPrev fuel idx = .ok (sec, cur)) :
    sec.center.get 0 = p.center.get 1 := by
  obtain ⟨j, hj⟩ := getRandomTrackSection_ok_inv h
  rw [Curve.get_zero, (trackSectionAttempt_ok_inv hj).1, attemptCenterLine_p0]
  rfl

theorem chained_dropLast {t : Track} (h : Chained t) : Chained t.dropLast := by
  rw [Chained, List.dropLast_eq_take]
  exact h.take _

theorem makeTrackStep_next_chained {K : Kernel} {O : ℕ → SectionDraws} {tw req : ℚ}
    {gfuel : ℕ} {st st' : BuildState} (hst : Chained st.sections)
    (h : makeTrackStep K O tw req gfuel st = .next st') : Chained st'.sections := by
  unfold makeTrackStep at h
  split at h
  · split at h
    · injection h with h'
      rw [← h']
      exact chained_dropLast hst
    · split at h
      · exact absurd h (by simp)
      · exact absurd h (by simp)
      next nextSection cursor' heq =>
        split at h
        · injection h with h'
          rw [← h']
          exact hst
        · injection h with h'
          rw [← h']
          show Chained (st.sections ++ [nextSection])
          by_cases hne : st.sections = []
          · rw [hne]
            exact List.chain'_singleton _
          · rw [List.getLast?_eq_getLast _ hne] at heq
            refine List.chain'_append.mpr ⟨hst, List.chain'_singleton _, ?_⟩
            intro x hx y hy
            rw [List.getLast?_eq_getLast _ hne, Option.mem_some_iff] at hx
            simp only [List.head?_cons, Option.mem_some_iff] at hy
            rw [← hx, ← hy]
            exact (getRandomTrackSection_ok_start heq).symm
  · exact absurd h (by simp)

theorem makeTrackStep_finished_eq {K : Kernel} {O : ℕ → SectionDraws} {tw req : ℚ}
    {gfuel : ℕ} {st : BuildState} {t : Track}
    (h : makeTrackStep K O tw req gfuel st = .finished t) : t = st.sections := by
  unfold makeTrackStep at h
  split at h
  · split at h
    · exact absurd h (by simp)
    · split at h
      · exact absurd h (by simp)
      · exact absurd h (by simp)
      · split at h <;> exact absurd h (by simp)
  · injection h with h'
    exact h'.symm

theorem makeTrackLoop_ok_chained {K : Kernel} {O : ℕ → SectionDraws} {tw req : ℚ}
    {gfuel : ℕ} {t : Track} :
    ∀ {loopFuel : ℕ} {st : BuildState}, Chained st.sections →
      makeTrackLoop K O tw req gfuel loopFuel st = .ok t → Chained t := by
  intro loopFuel
  induction loopFuel with
  | zero => intro st _ h; simp [makeTrackLoop] at h
  | succ n ih =>
    intro st hst h
    rw [makeTrackLoop] at h
    split at h
    next st' hs => exact ih (makeTrackStep_next_chained hst hs) h
    next tr hs =>
      injection h with h'
      rw [← h', makeTrackStep_finished_eq hs]
      exact hst
    · exact absurd h (by simp)
    · exact absurd h (by simp)

/-- C2: every track `makeTrack` returns is continuous: each section's center
curve evaluated at parameter 1 equals the next section's center curve
evaluated at parameter 0 (here: exactly, which implies equality within any
tolerance), because a continuing attempt's start point is the previous
section's center end point. -/
theorem claim2_continuity (K : Kernel) (O : ℕ → SectionDraws) (trackWidth : ℚ)
    (genFuel loopFuel : ℕ) (requestedSections : ℚ) (t : Track)
    (h : makeTrack K O trackWidth genFuel loopFuel requestedSections = .ok t) :
    Chained t := by
  unfold makeTrack at h
  split at h
  · exact absurd h (by simp)
  · exact absurd h (by simp)
  next firstSection cursor heq =>
    refine makeTrackLoop_ok_chained ?_ h
    show Chained [firstSection]
    exact List.chain'_singleton _

theorem claim2_continuity_witness : Chained [wSec0, wSec1] :=
  claim2_continuity wK wO (1 / 10) 1 2 2 [wSec0, wSec1] (by with_unfolding_all decide)

theorem makeTrackStep_done {K : Kernel} {O : ℕ → SectionDraws} {trackWidth : ℚ}
    {requestedSections : ℚ} {genFuel : ℕ} {st : BuildState}
    (hn : ¬ ((st.sections.length : ℚ) < requestedSections)) :
    makeTrackStep K O trackWidth requestedSections genFuel st = .finished st.sections := by
  unfold makeTrackStep
  rw [if_neg hn]

theorem makeTrack_single_of_le_one {K : Kernel} {O : ℕ → SectionDraws} {trackWidth : ℚ}
    {genFuel loopFuel : ℕ} {requestedSections : ℚ} {sec : TrackSection} {cursor : ℕ}
    (hn : requestedSections ≤ 1)
    (hgen : getRandomTrackSection K O trackWidth none [] genFuel 0 = .ok (sec, cursor)) :
    makeTrack K O trackWidth genFuel (loopFuel + 1) requestedSections = .ok [sec] := by
  unfold makeTrack
  rw [hgen]
  have hstep := @makeTrackStep_done K O trackWidth requestedSections genFuel
    ⟨[sec], fun j => if j = 0 then some 1 else none, cursor, [[sec]]⟩
    (by simp only [List.length_singleton, Nat.cast_one, not_lt]; exact hn)
  simp only [makeTrackLoop, hstep]

/-- C10: `makeTrack` builds the initial section before consulting the
requested count; for any requested count at most 1 (including 0 and negative
values), once the initial generation succeeds it returns that one-section
track, with no error. -/
theorem claim10_single_section (K : Kernel) (O : ℕ → SectionDraws) (trackWidth : ℚ)
    (genFuel loopFuel : ℕ) (requestedSections : ℚ) (sec : TrackSection) (cursor : ℕ)
    (hn : requestedSections ≤ 1)
    (hgen : getRandomTrackSection K O trackWidth none [] genFuel 0 = .ok (sec, cursor)) :
    makeTrack K O trackWidth genFuel (loopFuel + 1) requestedSections = .ok [sec] :=
  makeTrack_single_of_le_one hn hgen

theorem claim10_single_section_witness :
    makeTrack wK wO (1 / 10) 1 1 1 = .ok [wSec0] :=
  claim10_single_section wK wO (1 / 10) 1 0 1 wSec0 1 le_rfl
    (by with_unfolding_all decide)

/-- C3 counterexample: `makeTrack` with the non-positive requested count `0`
does not fail with a validation error; it generates the initial section and
returns a one-section track. -/
theorem claim3_counterexample : makeTrack wK wO (1 / 10) 1 1 0 = .ok [wSec0] := by
  with_unfolding_all decide

/-- C3 (amended): `makeTrack` performs no validation of its requested section
count.  The initial section is generated before the requested count is
consulted: if initial generation throws, `makeTrack` propagates that error
for every requested count, and if it succeeds, a non-positive requested count
yields a one-section track with no error. -/
theorem claim3_amended (K : Kernel) (O : ℕ → SectionDraws) (trackWidth : ℚ)
    (genFuel loopFuel : ℕ) (requestedSections : ℚ) :
    (∀ sec cursor,
      getRandomTrackSection K O trackWidth none [] genFuel 0 = .ok (sec, cursor) →
      requestedSections ≤ 0 →
      makeTrack K O trackWidth genFuel (loopFuel + 1) requestedSections = .ok [sec]) ∧
    (getRandomTrackSection K O trackWidth none [] genFuel 0 = .fatal →
      makeTrack K O trackWidth genFuel (loopFuel + 1) requestedSections = .fatal) := by
  constructor
  · intro sec cursor hgen hn
    exact makeTrack_single_of_le_one (hn.trans (by norm_num)) hgen
  · intro hgen
    unfold makeTrack
    rw [hgen]

theorem claim3_amended_witness : makeTrack wK wO (1 / 10) 1 1 (-1) = .ok [wSec0] :=
  (claim3_amended wK wO (1 / 10) 1 0 (-1)).1 wSec0 1 (by with_unfolding_all decide)
    (by norm_num)

/-- C4: in the extend loop, whenever the attempt counter of the index about
to be filled exceeds `maximumTriesPerSection = 3` (and a section exists to
remove), the step pops the last accepted section, resets that index's counter
to 0, increments the preceding index's counter by 1, leaves all other
counters and the oracle cursor unchanged, and emits a snapshot of the
shortened track before looping. -/
theorem claim4_backtracking (K : Kernel) (O : ℕ → SectionDraws) (trackWidth : ℚ)
    (requestedSections : ℚ) (genFuel : ℕ) (st : BuildState)
    (hlt : (st.sections.length : ℚ) < requestedSections)
    (htries : (st.tries st.sections.length).getD 0 > maximumTriesPerSection)
    (hne : st.sections ≠ []) :
    ∃ st', makeTrackStep K O trackWidth requestedSections genFuel st = .next st' ∧
      st'.sections = st.sections.dropLast ∧
      st'.sections.length + 1 = st.sections.length ∧
      st'.tries st.sections.length = some 0 ∧
      st'.tries (st.sections.length - 1)
        = some ((st.tries (st.sections.length - 1)).getD 0 + 1) ∧
      (∀ j, j ≠ st.sections.length → j + 1 ≠ st.sections.length → st'.tries j = st.tries j) ∧
      st'.emitted = st.emitted ++ [st.sections.dropLast] ∧
      st'.cursor = st.cursor := by
  have hlen : 1 ≤ st.sections.length := by
    cases hs : st.sections with
    | nil => exact absurd hs hne
    | cons a l => simp [hs]
  refine ⟨⟨st.sections.dropLast,
      fun j =>
        if j = st.sections.length then some 0
        else if j + 1 = st.sections.length then some ((st.tries j).getD 0 + 1)
        else st.tries j,
      st.cursor, st.emitted ++ [st.sections.dropLast]⟩, ?_, rfl, ?_, ?_, ?_, ?_, rfl, rfl⟩
  · unfold makeTrackStep
    rw [if_pos hlt, if_pos htries]
  · simp [List.length_dropLast]
    omega
  · simp
  · have h1 : st.sections.length - 1 ≠ st.sections.length := by omega
    have h2 : st.sections.length - 1 + 1 = st.sections.length := by omega
    simp only [h1, if_false, h2, if_pos rfl]
    simp
  · intro j hj1 hj2
    simp only [if_neg hj1, if_neg hj2]

/-- A concrete mid-build state: two accepted sections, with the counter for
index 2 already at 4 (> `maximumTriesPerSection`). -/
def wState : BuildState :=
  ⟨[wSec0, wSec0],
    fun j => if j = 2 then some 4 else if j = 0 ∨ j = 1 then some 1 else none,
    7, [[wSec0]]⟩

theorem claim4_backtracking_witness :
    ∃ st', makeTrackStep wK wO (1 / 10) 3 1 wState = .next st' ∧
      st'.sections = wState.sections.dropLast ∧
      st'.sections.length + 1 = wState.sections.length ∧
      st'.tries wState.sections.length = some 0 ∧
      st'.tries (wState.sections.length - 1)
        = some ((wState.tries (wState.sections.length - 1)).getD 0 + 1) ∧
      (∀ j, j ≠ wState.sections.length → j + 1 ≠ wState.sections.length →
        st'.tries j = wState.tries j) ∧
      st'.emitted = wState.emitted ++ [wState.sections.dropLast] ∧
      st'.cursor = wState.cursor :=
  claim4_backtracking wK wO (1 / 10) 3 1 wState (by with_unfolding_all decide)
    (by with_unfolding_all decide) (by with_unfolding_all decide)

/-- C9 counterexample: on the zero-length vector the source `scaleLength`
does not fail; under IEEE-754 semantics it returns a point whose coordinates
are both NaN. -/
theorem claim9_counterexample :
    scaleLengthX sqrtZeroModel ⟨XNum.fin 0, XNum.fin 0⟩ (XNum.fin 1)
      = ⟨XNum.nan, XNum.nan⟩ := by
  with_unfolding_all decide

/-- C9 (amended): for every model of `Math.sqrt` that is exact at `0` (as
IEEE-754 requires) and every target length, `scaleLength` on a zero-length
vector returns `(NaN, NaN)`: it propagates NaN instead of failing. -/
theorem claim9_amended (msqrt : XNum → XNum) (h0 : msqrt (XNum.fin 0) = XNum.fin 0)
    (newLength : XNum) :
    scaleLengthX msqrt ⟨XNum.fin 0, XNum.fin 0⟩ newLength = ⟨XNum.nan, XNum.nan⟩ := by
  have hz : XNum.add (XNum.mul (XNum.fin 0) (XNum.fin 0)) (XNum.mul (XNum.fin 0) (XNum.fin 0))
      = XNum.fin 0 := by
    norm_num [XNum.mul, XNum.add]
  unfold scaleLengthX
  rw [hz, h0]
  rcases newLength with q | _ | _ | _
  · rcases lt_trichotomy q 0 with hq | hq | hq
    · have : XNum.div (XNum.fin q) (XNum.fin 0) = XNum.ninf := by
        simp [XNum.div, hq, not_lt_of_lt hq]
      rw [this]
      simp [XNum.mul]
    · subst hq
      have : XNum.div (XNum.fin 0) (XNum.fin 0) = XNum.nan := by
        simp [XNum.div]
      rw [this]
      simp [XNum.mul]
    · have : XNum.div (XNum.fin q) (XNum.fin 0) = XNum.pinf := by
        simp [XNum.div, hq]
      rw [this]
      simp [XNum.mul]
  · have : XNum.div XNum.pinf (XNum.fin 0) = XNum.pinf := by
      simp [XNum.div]
    rw [this]
    simp [XNum.mul]
  · have : XNum.div XNum.ninf (XNum.fin 0) = XNum.ninf := by
      simp [XNum.div]
    rw [this]
    simp [XNum.mul]
  · have : XNum.div XNum.nan (XNum.fin 0) = XNum.nan := by
      simp [XNum.div]
    rw [this]
    simp [XNum.mul]

theorem claim9_amended_witness :
    scaleLengthX sqrtZeroModel ⟨XNum.fin 0, XNum.fin 0⟩ (XNum.fin 5)
      = ⟨XNum.nan, XNum.nan⟩ :=
  claim9_amended sqrtZeroModel (by with_unfolding_all decide) (XNum.fin 5)

theorem ratio_gt_point_six_iff (c : ℕ) : (((c : ℚ) + 1) / 10 > (0.6 : ℚ)) ↔ 6 < c + 1 := by
  rw [gt_iff_lt, lt_div_iff₀ (by norm_num : (0 : ℚ) < 10)]
  constructor
  · intro h
    by_contra hcon
    push_neg at hcon
    have hq : ((c : ℚ) + 1) ≤ 6 := by exact_mod_cast hcon
    nlinarith
  · intro h
    have hq : (7 : ℚ) ≤ (c : ℚ) + 1 := by exact_mod_cast h
    nlinarith

theorem enclosedLoop_iff (K : Kernel) (point : Point) (cls : List Curve) :
    ∀ (rays : List Point) (count : ℕ), count ≤ 6 →
      (enclosedLoop K point cls rays count = true ↔
        6 < count + rays.countP (fun r => cls.reverse.any fun c =>
          decide (0 < (K.lineIntersects c ⟨point, add point r⟩).length))) := by
  intro rays
  induction rays with
  | nil =>
    intro count hc
    simp only [enclosedLoop, List.countP_nil]
    constructor
    · intro h
      exact absurd h (by simp)
    · omega
  | cons r rest ih =>
    intro count hc
    rw [enclosedLoop, List.countP_cons]
    by_cases hb : (cls.reverse.any fun c =>
        decide (0 < (K.lineIntersects c ⟨point, add point r⟩).length)) = true
    · rw [if_pos hb]
      by_cases hratio : ((count : ℚ) + 1) / 10 > (0.6 : ℚ)
      · rw [if_pos hratio]
        have h7 := (ratio_gt_point_six_iff count).mp hratio
        simp only [hb, if_pos]
        constructor
        · intro _
          omega
        · intro _
          trivial
      · rw [if_neg hratio]
        have h7 : count + 1 ≤ 6 := by
          have := (ratio_gt_point_six_iff count).not.mp hratio
          omega
        rw [ih (count + 1) h7]
        simp only [hb, if_pos]
        omega
    · rw [if_neg hb]
      rw [ih count hc]
      simp only [hb, if_neg]
      simp only [Bool.false_eq_true, if_false]
      omega

/-- C7: `isMostlyEnclosed` returns false when there are no existing sections;
otherwise it casts the ten precomputed rays from the point and returns true
exactly when the fraction of rays blocked by some existing center curve
exceeds 0.6; and each cast ray (`rayDelta k`, the `k`-th of the 10 equally
spaced directions) has length 50. -/
theorem claim7_mostly_enclosed (K : Kernel) (point : Point) (existingSections : Track)
    (_hrays : K.rayDeltas.length = 10) :
    (existingSections = [] → isMostlyEnclosed K point existingSections = false) ∧
    (isMostlyEnclosed K point existingSections = true ↔
      ((blockedRayCount K point existingSections : ℚ)) / 10 > (0.6 : ℚ)) ∧
    (∀ k, Real.sqrt ((rayDelta k).1 ^ 2 + (rayDelta k).2 ^ 2) = 50) := by
  refine ⟨?_, ?_, ?_⟩
  · intro h
    rw [h]
    simp [isMostlyEnclosed]
  · unfold isMostlyEnclosed
    split
    · next hlen =>
      have hemp : existingSections = [] := List.length_eq_zero.mp hlen
      have hzero : blockedRayCount K point existingSections = 0 := by
        rw [hemp]
        simp [blockedRayCount]
      rw [hzero]
      norm_num
    · next hlen =>
      rw [enclosedLoop_iff K point (existingSections.map fun sec => sec.center) K.rayDeltas 0
        (by norm_num)]
      unfold blockedRayCount
      have hcast : ∀ n : ℕ, (6 < 0 + n) ↔ ((n : ℚ)) / 10 > (0.6 : ℚ) := by
        intro n
        cases n with
        | zero => norm_num
        | succ m =>
          push_cast
          rw [ratio_gt_point_six_iff m]
          omega
      exact hcast _
  · intro k
    have hcs : (rayDelta k).1 ^ 2 + (rayDelta k).2 ^ 2 = 2500 := by
      have hpyth := Real.sin_sq_add_cos_sq (2 * Real.pi * k / 10)
      simp only [rayDelta]
      nlinarith [hpyth]
    rw [hcs, show (2500 : ℝ) = 50 ^ 2 by norm_num, Real.sqrt_sq (by norm_num : (0:ℝ) ≤ 50)]

theorem claim7_mostly_enclosed_witness :
    (([wSec0] : Track) = [] → isMostlyEnclosed wK ⟨2, 2⟩ [wSec0] = false) ∧
    (isMostlyEnclosed wK ⟨2, 2⟩ [wSec0] = true ↔
      ((blockedRayCount wK ⟨2, 2⟩ [wSec0] : ℚ)) / 10 > (0.6 : ℚ)) ∧
    (∀ k, Real.sqrt ((rayDelta k).1 ^ 2 + (rayDelta k).2 ^ 2) = 50) :=
  claim7_mostly_enclosed wK ⟨2, 2⟩ [wSec0] (by with_unfolding_all decide)

theorem distance_comm (K : Kernel) (p q : Point) : distance K p q = distance K q p := by
  unfold distance getLength add invert
  congr 1
  ring

/-- C5: for a non-empty outline curve sequence, `hasGapsInOutline` is true
exactly when some consecutive pair's end/start distance exceeds
`maximumAllowedOutlineGap = 0.0001`, or the wraparound distance between the
last curve's end and the first curve's start exceeds it. -/
theorem claim5_gaps_iff (K : Kernel) (curves : List Curve) (hne : curves ≠ []) :
    hasGapsInOutline K curves = true ↔
      ((∃ i, i + 1 < curves.length ∧
        distance K ((curves.getD i default).get 1) ((curves.getD (i + 1) default).get 0)
          > maximumAllowedOutlineGap) ∨
       distance K ((curves.getD (curves.length - 1) default).get 1)
         ((curves.getD 0 default).get 0) > maximumAllowedOutlineGap) := by
  have hpos : 0 < curves.length := List.length_pos.mpr hne
  unfold hasGapsInOutline
  rw [Bool.or_eq_true, List.any_eq_true]
  constructor
  · rintro (⟨i, hi, hd⟩ | hw)
    · left
      rw [List.mem_range'_1] at hi
      have hii : i - 1 + 1 = i := by omega
      refine ⟨i - 1, by omega, ?_⟩
      rw [hii]
      exact of_decide_eq_true hd
    · right
      rw [distance_comm]
      exact of_decide_eq_true hw
  · rintro (⟨j, hj, hd⟩ | hw)
    · left
      refine ⟨j + 1, ?_, ?_⟩
      · rw [List.mem_range'_1]
        omega
      · simp only [Nat.add_sub_cancel]
        exact decide_eq_true hd
    · right
      rw [distance_comm] at hw
      exact decide_eq_true hw

theorem claim5_gaps_iff_witness :
    (([capCurveA, gapSideCurve] : List Curve) ≠ []) ∧
    (hasGapsInOutline wK [capCurveA, gapSideCurve] = true ↔
      ((∃ i, i + 1 < ([capCurveA, gapSideCurve] : List Curve).length ∧
        distance wK ((([capCurveA, gapSideCurve] : List Curve).getD i default).get 1)
          ((([capCurveA, gapSideCurve] : List Curve).getD (i + 1) default).get 0)
          > maximumAllowedOutlineGap) ∨
       distance wK ((([capCurveA, gapSideCurve] : List Curve).getD
           (([capCurveA, gapSideCurve] : List Curve).length - 1) default).get 1)
         ((([capCurveA, gapSideCurve] : List Curve).getD 0 default).get 0)
         > maximumAllowedOutlineGap)) :=
  ⟨by simp, claim5_gaps_iff wK [capCurveA, gapSideCurve] (by simp)⟩

/-- C6: a curve is classified "probably an end cap" exactly when the kernel
reports it linear and its arc length is strictly within 5% of the track
width; and every section the generator returns has exactly two such curves in
the outline of its center at half the track width (any other count is
rejected and the attempt regenerated). -/
theorem claim6_end_caps (K : Kernel) (trackWidth : ℚ) :
    (∀ curve, isProbablyEndCap K curve trackWidth = true ↔
      (K.isLinear curve = true ∧ (0.95 : ℚ) * trackWidth < K.curveLength curve ∧
        K.curveLength curve < (1.05 : ℚ) * trackWidth)) ∧
    (∀ (O : ℕ → SectionDraws) (previousSection : Option TrackSection)
        (allPreviousSections : Track) (fuel idx : ℕ) (sec : TrackSection) (cursor : ℕ),
      getRandomTrackSection K O trackWidth previousSection allPreviousSections fuel idx
          = .ok (sec, cursor) →
      ((K.outline sec.center (trackWidth / 2)).filter fun curve =>
        isProbablyEndCap K curve trackWidth).length = 2) := by
  constructor
  · intro curve
    unfold isProbablyEndCap
    simp [Bool.and_eq_true, decide_eq_true_iff, and_assoc]
  · intro O previousSection allPreviousSections fuel idx sec cursor h
    obtain ⟨j, hj⟩ := getRandomTrackSection_ok_inv h
    obtain ⟨hcenter, hcaps⟩ := trackSectionAttempt_ok_inv hj
    rw [hcenter]
    exact hcaps

theorem claim6_end_caps_witness :
    ((wK.outline wSec0.center ((1 / 10) / 2)).filter fun curve =>
      isProbablyEndCap wK curve (1 / 10)).length = 2 :=
  (claim6_end_caps wK (1 / 10)).2 wO none [] 1 0 wSec0 1 (by with_unfolding_all decide)

/-- A kernel identical to `wK` except that the outline's two end caps sit at
indices 1 and 2 (index 0 is a non-cap curve), with no outline gaps: the
attempt reaches the end-cap-index assumption check and hits the throw. -/
def cxK : Kernel :=
  ⟨fun q => if q = 0 then 0 else 1,
    fun _ _ => [],
    fun _ _ => false,
    fun _ _ _ => [],
    fun _ _ => [],
    fun _ _ => [sideCurveA, capCurveA, capCurveB, sideCurveB],
    fun c => decide (c.p1 = ⟨1, 0⟩),
    fun _ => 1 / 10,
    fun _ _ => 1,
    (List.range 10).map fun k => ⟨k, 0⟩⟩

/-- Like `cxK` (end caps at indices 1 and 2), but the last outline curve ends
at `(5, 5)`, opening a wraparound outline gap: the gap check rejects the
attempt before the end-cap-index check is reached. -/
def cxK2 : Kernel :=
  ⟨fun q => if q = 0 then 0 else 1,
    fun _ _ => [],
    fun _ _ => false,
    fun _ _ _ => [],
    fun _ _ => [],
    fun _ _ => [sideCurveA, capCurveA, capCurveB, gapSideCurve],
    fun c => decide (c.p1 = ⟨1, 0⟩),
    fun _ => 1 / 10,
    fun _ _ => 1,
    (List.range 10).map fun k => ⟨k, 0⟩⟩

/-- C8 counterexample: an attempt whose outline has exactly two probable end
caps with the first one not at index 0, but also an outline gap: the
generator does not throw; it keeps retrying with fresh randomness (here until
fuel runs out), because the gap check precedes the end-cap-index check. -/
theorem claim8_counterexample :
    (attemptEndCaps cxK2 (wO 0) (1 / 10) none).length = 2 ∧
    (endCapIndexes cxK2 (attemptOutline cxK2 (wO 0) (1 / 10) none) (1 / 10)).getD 0 0 ≠ 0 ∧
    getRandomTrackSection cxK2 wO (1 / 10) none [] 5 0 = .outOfFuel := by
  with_unfolding_all decide

/-- C8 (amended): when an attempt finds exactly two probable end caps, both
pass the proximity check, the outline has no gaps, and the first end cap is
not at outline index 0, the generator throws: `getRandomTrackSection`
returns the fatal error rather than retrying. -/
theorem claim8_amended (K : Kernel) (O : ℕ → SectionDraws) (trackWidth : ℚ)
    (previousSection : Option TrackSection) (allPreviousSections : Track) (fuel idx : ℕ)
    (h1 : isMostlyEnclosed K (attemptCenterLine K (O idx) previousSection).p3
        allPreviousSections = false)
    (h2 : (K.selfintersects (attemptCenterLine K (O idx) previousSection)
        curveIntersectionThreshold).length = 0)
    (h3 : (attemptEndCaps K (O idx) trackWidth previousSection).length = 2)
    (h4 : (attemptEndCaps K (O idx) trackWidth previousSection).any (fun cap =>
        endpointIsTooCloseToCurve K cap (attemptCenterLine K (O idx) previousSection)
          trackWidth) = false)
    (h5 : hasGapsInOutline K (attemptOutline K (O idx) trackWidth previousSection) = false)
    (h6 : (endCapIndexes K (attemptOutline K (O idx) trackWidth previousSection)
        trackWidth).getD 0 0 ≠ 0) :
    getRandomTrackSection K O trackWidth previousSection allPreviousSections (fuel + 1) idx
      = .fatal := by
  have hatt : trackSectionAttempt K (O idx) trackWidth previousSection allPreviousSections
      = .fatal := by
    unfold trackSectionAttempt
    rw [if_neg (by simp [h1])]
    rw [if_neg (by simp [h2])]
    rw [if_neg (by simp [h3])]
    rw [if_neg (by simp [h4])]
    rw [if_neg (by simp [h5])]
    rw [if_pos h6]
  rw [getRandomTrackSection, hatt]

theorem claim8_amended_witness :
    getRandomTrackSection cxK wO (1 / 10) none [] 3 0 = .fatal :=
  claim8_amended cxK wO (1 / 10) none [] 2 0
    (by with_unfolding_all decide) (by with_unfolding_all decide)
    (by with_unfolding_all decide) (by with_unfolding_all decide)
    (by with_unfolding_all decide) (by with_unfolding_all decide)

/-- A kernel whose `selfintersects` always reports an interior
self-intersection while everything else is empty: it exhibits the unchecked
last new curve. -/
def cexK : Kernel :=
  ⟨fun _ => 0,
    fun _ _ => [(1 / 2, 1 / 2)],
    fun _ _ => false,
    fun _ _ _ => [],
    fun _ _ => [],
    fun _ _ => [],
    fun _ => false,
    fun _ => 0,
    fun _ _ => 0,
    []⟩

/-- A kernel whose broad-phase `overlaps` always passes and which reports an
interior intersection `(1/2, 1/2)` for every distinct pair. -/
def wxK : Kernel :=
  ⟨fun _ => 0,
    fun _ _ => [],
    fun _ _ => true,
    fun _ _ _ => [(1 / 2, 1 / 2)],
    fun _ _ => [],
    fun _ _ => [],
    fun _ => false,
    fun _ => 0,
    fun _ _ => 0,
    []⟩

theorem hasIntersection_iff (K : Kernel)
    (hov : ∀ c1 c2, K.overlaps c1 c2 = false →
      K.intersects c1 c2 curveIntersectionThreshold = [])
    (c1 c2 : Curve) :
    hasIntersectionOtherThanAtCurveEnds K c1 c2 = true ↔ intersectionCountsPred K c1 c2 := by
  unfold hasIntersectionOtherThanAtCurveEnds intersectionCountsPred
  by_cases heq : c1 = c2
  · rw [if_pos heq, if_pos heq, decide_eq_true_iff]
    constructor
    · intro h
      exact List.ne_nil_of_length_pos h
    · intro h
      exact List.length_pos.mpr h
  · rw [if_neg heq, if_neg heq]
    by_cases hovl : K.overlaps c1 c2 = false
    · rw [if_pos hovl]
      simp only [Bool.false_eq_true, false_iff]
      rw [hov c1 c2 hovl]
      simp
    · rw [if_neg hovl]
      by_cases hlen : (K.intersects c1 c2 curveIntersectionThreshold).length = 0
      · rw [if_pos hlen, List.length_eq_zero.mp hlen]
        simp
      · rw [if_neg hlen, List.any_eq_true]
        constructor
        · rintro ⟨p, hp, hd⟩
          exact ⟨p, hp, of_decide_eq_true hd⟩
        · rintro ⟨p, hp, hd⟩
          exact ⟨p, hp, decide_eq_true hd⟩

/-- C1 counterexample: a single self-intersecting new curve.  The spec's
reading says `hasAnySelfIntersections` must be true (the curve paired with
itself has a true self-intersection), but the code's outer loop never reaches
the last new curve, so it returns false. -/
theorem claim1_counterexample :
    hasAnySelfIntersections cexK [capCurveA] [] = false ∧ claimC1Pred cexK [capCurveA] [] := by
  constructor
  · with_unfolding_all decide
  · left
    refine ⟨0, 0, le_rfl, by simp, ?_⟩
    unfold intersectionCountsPred
    rw [if_pos rfl]
    with_unfolding_all decide

/-- C1 (amended): for a kernel whose broad-phase `overlaps` is consistent
with `intersects`, `hasAnySelfIntersections(newCurves, existingCurves)` is
true iff some pair `(i, j)` of new curves with `i ≤ j` and `i` strictly
before the last index (the last new curve is never paired with itself), or
some pair of a new curve before the last index and an existing curve, counts
as intersecting with a parametric coordinate strictly inside `(0.01, 0.99)`
(self-pairs via true self-intersection). -/
theorem claim1_amended (K : Kernel) (curves existingCurves : List Curve)
    (hov : ∀ c1 c2, K.overlaps c1 c2 = false →
      K.intersects c1 c2 curveIntersectionThreshold = []) :
    hasAnySelfIntersections K curves existingCurves = true ↔
      amendedC1Pred K curves existingCurves := by
  unfold hasAnySelfIntersections amendedC1Pred
  rw [List.any_eq_true]
  constructor
  · rintro ⟨i, hi, hcond⟩
    rw [List.mem_range] at hi
    rw [Bool.or_eq_true] at hcond
    rcases hcond with hinner | hexist
    · left
      rw [List.any_eq_true] at hinner
      obtain ⟨j, hj, hd⟩ := hinner
      rw [List.mem_range'_1] at hj
      refine ⟨i, j, by omega, hj.1, by omega, ?_⟩
      exact (hasIntersection_iff K hov _ _).mp hd
    · right
      rw [List.any_eq_true] at hexist
      obtain ⟨e, he, hd⟩ := hexist
      exact ⟨i, by omega, e, he, (hasIntersection_iff K hov _ _).mp hd⟩
  · rintro (⟨i, j, hi, hij, hj, hp⟩ | ⟨i, hi, e, he, hp⟩)
    · refine ⟨i, ?_, ?_⟩
      · rw [List.mem_range]
        omega
      · rw [Bool.or_eq_true]
        left
        rw [List.any_eq_true]
        refine ⟨j, ?_, (hasIntersection_iff K hov _ _).mpr hp⟩
        rw [List.mem_range'_1]
        exact ⟨hij, by omega⟩
    · refine ⟨i, ?_, ?_⟩
      · rw [List.mem_range]
        omega
      · rw [Bool.or_eq_true]
        right
        rw [List.any_eq_true]
        exact ⟨e, he, (hasIntersection_iff K hov _ _).mpr hp⟩

theorem claim1_amended_witness :
    (∀ c1 c2 : Curve, wxK.overlaps c1 c2 = false →
      wxK.intersects c1 c2 curveIntersectionThreshold = []) ∧
    (hasAnySelfIntersections wxK [capCurveA, sideCurveA] [] = true ↔
      amendedC1Pred wxK [capCurveA, sideCurveA] []) :=
  ⟨fun _ _ h => Bool.noConfusion h,
    claim1_amended wxK [capCurveA, sideCurveA] [] (fun _ _ h => Bool.noConfusion h)⟩

end TrackGenerator
